import Mathlib

/-!
Verification of the logfire SDK configuration core (`logfire/_internal/config.py`)
against its natural-language specification.

The Python source is shallowly embedded:
* Python strings that are only inspected character-by-character (project names)
  are modelled as lists of Unicode code points (`List Nat`).
* JSON values (the credentials file and HTTP response bodies) are an inductive type.
* Python exceptions are modelled with `Except`; an `Except.error` value marks an
  exception propagating out of the embedded function.
* Interactive prompts and HTTP responses are oracles (`Nat → _` input streams),
  and the unbounded retry loop of `create_new_project` is given explicit fuel.
-/

namespace Logfire

/-- Model of a parsed JSON value, as produced by Python's `json.load`.
The numeric payload is irrelevant to the code under study, so numbers carry an `Int`. -/
inductive Json where
  | null
  | bool (b : Bool)
  | num (n : Int)
  | str (s : String)
  | arr (elems : List Json)
  | obj (fields : List (String × Json))

/-- Kinds of Python exceptions that the embedded code can raise or catch.
`configError` stands for `LogfireConfigError`. -/
inductive PyErr where
  | configError
  | attributeError
  | keyError
  | typeError
  | jsonDecodeError
deriving DecidableEq

/-- The `LogfireCredentials` dataclass (config.py lines 902-913).
Python dataclasses perform no runtime type validation, so each field holds
whatever JSON value the credentials file supplied. -/
structure LogfireCredentials where
  token : Json
  project_name : Json
  project_url : Json
  logfire_api_url : Json

/-- Python `dict.pop(k, None)` on a JSON object: return the value bound to `k`
(`none` if absent) together with the object with that binding removed. -/
def popKey (k : String) : List (String × Json) → Option Json × List (String × Json)
  | [] => (none, [])
  | (k2, v) :: rest =>
    if k2 = k then (some v, rest)
    else
      let r := popKey k rest
      (r.1, (k2, v) :: r.2)

/-- Python `dict.setdefault(k, v)`: insert `(k, v)` (at the end, matching dict
insertion order) unless `k` is already present. -/
def setdefaultKey (k : String) (v : Json) (kvs : List (String × Json)) :
    List (String × Json) :=
  if kvs.any (fun p => p.1 = k) then kvs else kvs ++ [(k, v)]

/-- The legacy-key handling of `load_creds_file` (config.py lines 937-940):
`dashboard_url = data.pop('dashboard_url', None)`, then
`if dashboard_url is not None: data.setdefault('project_url', dashboard_url)`.
Note that a JSON `null` value parses to Python `None`, so a null `dashboard_url`
is removed but not aliased. -/
def legacyAdjust (kvs : List (String × Json)) : List (String × Json) :=
  let p := popKey "dashboard_url" kvs
  match p.1 with
  | none => p.2
  | some .null => p.2
  | some v => setdefaultKey "project_url" v p.2

/-- The field names of the `LogfireCredentials` dataclass, in declaration order. -/
def credsFieldNames : List String :=
  ["token", "project_name", "project_url", "logfire_api_url"]

/-- Python `LogfireCredentials(**data)` (config.py line 941): succeeds exactly when
the keyword set is precisely the four dataclass fields; any missing or unexpected
keyword raises `TypeError` (modelled as `none`). -/
def mkCreds (kvs : List (String × Json)) : Option LogfireCredentials :=
  match popKey "token" kvs with
  | (some t, r1) =>
    match popKey "project_name" r1 with
    | (some n, r2) =>
      match popKey "project_url" r2 with
      | (some u, r3) =>
        match popKey "logfire_api_url" r3 with
        | (some a, []) => some ⟨t, n, u, a⟩
        | _ => none
      | _ => none
    | _ => none
  | _ => none

/-- State of the credentials file `<data_dir>/logfire_credentials.json` as seen by
`load_creds_file`: absent, unreadable (`OSError` on open/read), unparseable
(`ValueError` from `json.load`), or parsed JSON content. -/
inductive CredsFile where
  | absent
  | unreadable
  | invalidJson
  | content (j : Json)

/-- `LogfireCredentials.load_creds_file` (config.py lines 915-943).
`OSError`/`ValueError` while reading or parsing, and `TypeError` from
`cls(**data)` (wrong keys, including on a JSON array where `.pop` raises
`TypeError`), are caught and re-raised as `LogfireConfigError`.
A top-level JSON scalar has no `.pop` attribute; the resulting `AttributeError`
is not caught by either `except` clause and propagates as-is.
Returns `none` when the file does not exist. -/
def load_creds_file : CredsFile → Except PyErr (Option LogfireCredentials)
  | .absent => .ok none
  | .unreadable => .error .configError
  | .invalidJson => .error .configError
  | .content (.obj kvs) =>
    match mkCreds (legacyAdjust kvs) with
    | some c => .ok (some c)
    | none => .error .configError
  | .content (.arr _) => .error .configError
  | .content _ => .error .attributeError

/-- `LogfireCredentials.write_creds_file` (config.py lines 1317-1322):
`dataclasses.asdict(self)` serialises the four fields in declaration order. -/
def write_creds_file (c : LogfireCredentials) : CredsFile :=
  .content (.obj
    [ ("token", c.token)
    , ("project_name", c.project_name)
    , ("project_url", c.project_url)
    , ("logfire_api_url", c.logfire_api_url) ])

/-- The `send_to_logfire` setting: `True`, `False`, or `'if-token-present'`. -/
inductive SendOpt where
  | yes
  | no
  | ifTokenPresent
deriving DecidableEq

/-- Observable effects of the credential section of `LogfireConfig._initialize`,
in the order they happen. `bootstrapPrompt` is the interactive
`initialize_project` flow, `writeCredsFileEv` is the persistence of the fresh
credentials, `spawnTokenCheck` is the background `check_token` thread, and
`setupExport` is the construction of the OTLP exporter pipeline. -/
inductive FlowEvent where
  | bootstrapPrompt
  | writeCredsFileEv
  | spawnTokenCheck
  | setupExport
deriving DecidableEq

/-- Result of the credential section of `_initialize`: the new state of the
credentials file, the ordered effects, and the token handed to the exporters. -/
structure FlowResult where
  newFs : CredsFile
  events : List FlowEvent
  exportToken : Option Json

/-- The guard of config.py line 675:
`(send_to_logfire == 'if-token-present' and token is not None) or send_to_logfire is True`. -/
def sendEnabled (send : SendOpt) (token : Option Json) : Bool :=
  (send = SendOpt.ifTokenPresent && token.isSome) || send = SendOpt.yes

/-- The credential/bootstrap section of `LogfireConfig._initialize`
(config.py lines 675-709). With sending enabled and no token, the credentials
file is loaded; if it is absent, `initialize_project` runs interactively
(abstracted here as the oracle `bootstrap` supplying the credentials it would
return) and the result is written to the file before export is set up.
With an explicit token, a background validation thread is spawned instead. -/
def credentials_flow (send : SendOpt) (token : Option Json) (fs : CredsFile)
    (bootstrap : LogfireCredentials) : Except PyErr FlowResult :=
  if sendEnabled send token then
    match token with
    | none =>
      match load_creds_file fs with
      | .error e => .error e
      | .ok (some creds) =>
        .ok { newFs := fs, events := [.setupExport], exportToken := some creds.token }
      | .ok none =>
        .ok { newFs := write_creds_file bootstrap
            , events := [.bootstrapPrompt, .writeCredsFileEv, .setupExport]
            , exportToken := some bootstrap.token }
    | some t =>
      .ok { newFs := fs, events := [.spawnTokenCheck, .setupExport], exportToken := some t }
  else
    .ok { newFs := fs, events := [], exportToken := none }

/-- Outcome of the `GET /v1/info` request issued by `from_token`
(config.py lines 956-961): either a `requests.RequestException`, or an HTTP
response with a status code and a body (`none` when the body is not valid JSON,
so that `response.json()` raises). -/
inductive InfoOutcome where
  | requestException
  | response (status : Nat) (body : Option Json)

/-- Python subscripting `data[k]` on a parsed JSON value: `KeyError` when the key
is missing from an object, `TypeError` when the value is not a dict. -/
def jsonSubscript (j : Json) (k : String) : Except PyErr Json :=
  match j with
  | .obj kvs =>
    match kvs.lookup k with
    | some v => .ok v
    | none => .error .keyError
  | _ => .error .typeError

/-- The credentials object built by `from_token` on a 200 response
(config.py lines 976-982): the caller's token and base URL, plus the
`project_name` and `project_url` fields of the response body. -/
structure InfoCredentials where
  token : String
  project_name : Json
  project_url : Json
  logfire_api_url : String

/-- `LogfireCredentials.from_token` (config.py lines 945-982), as a function of
the outcome of the `/v1/info` request. The returned `Bool` records whether a
warning was issued. A `RequestException`, a 401, and any other non-200 status
warn and return `None`. On a 200 response the body is parsed with
`response.json()` and subscripted, so a malformed body raises. -/
def from_token (token : String) (base_url : String) :
    InfoOutcome → Except PyErr (Option InfoCredentials × Bool)
  | .requestException => .ok (none, true)
  | .response status body =>
    if status = 401 then .ok (none, true)
    else if status ≠ 200 then .ok (none, true)
    else
      match body with
      | none => .error .jsonDecodeError
      | some j =>
        match jsonSubscript j "project_name" with
        | .error e => .error e
        | .ok pn =>
          match jsonSubscript j "project_url" with
          | .error e => .error e
          | .ok pu => .ok (some ⟨token, pn, pu, base_url⟩, false)

/-- Code points of a Lean string literal; Python strings are modelled as lists
of Unicode code points. -/
def strCodes (s : String) : List Nat :=
  s.toList.map Char.toNat

/-- Membership in the regex character class `[^a-zA-Z0-9]` is the negation of
this predicate (config.py line 1362). -/
def isAsciiAlnumCode (c : Nat) : Bool :=
  (97 ≤ c && c ≤ 122) || (65 ≤ c && c ≤ 90) || (48 ≤ c && c ≤ 57)

/-- Python `str.lower` restricted to the characters that survive the
`[^a-zA-Z0-9]` substitution, where Unicode lowercasing coincides with
ASCII lowercasing. -/
def pyLowerCode (c : Nat) : Nat :=
  if 65 ≤ c && c ≤ 90 then c + 32 else c

/-- `sanitize_project_name` (config.py lines 1358-1362):
`re.sub(r'[^a-zA-Z0-9]', '', name).lower()[:41] or 'untitled'`.
The Python `or` takes the fallback exactly when the left operand is the
empty (falsy) string. -/
def sanitize_project_name (name : List Nat) : List Nat :=
  let cleaned := ((name.filter isAsciiAlnumCode).map pyLowerCode).take 41
  if cleaned.isEmpty then strCodes "untitled" else cleaned

/-- `default_project_name` (config.py lines 1365-1366):
`sanitize_project_name(os.path.basename(os.getcwd()))`, as a function of the
basename of the current working directory. -/
def default_project_name (cwdBasename : List Nat) : List Nat :=
  sanitize_project_name cwdBasename

/-- Membership in the regex character class `[a-z0-9]`. -/
def isLowerAlnumCode (c : Nat) : Bool :=
  (97 ≤ c && c ≤ 122) || (48 ≤ c && c ≤ 57)

/-- Split a string at every hyphen (code point 45), keeping empty segments,
so that `splitHyphen` of `"a-b"` is `[[97], [98]]` and of `""` is `[[]]`. -/
def splitHyphen : List Nat → List (List Nat)
  | [] => [[]]
  | c :: rest =>
    let gs := splitHyphen rest
    if c = 45 then [] :: gs
    else
      match gs with
      | g :: gs2 => (c :: g) :: gs2
      | [] => [[c]]

/-- The language of `PROJECT_NAME_PATTERN = r'^[a-z0-9]+(?:-[a-z0-9]+)*$'`
(config.py line 96): a full match holds exactly when splitting at hyphens
yields only nonempty groups of characters in `[a-z0-9]` (so the string is
nonempty, has no leading/trailing hyphen and no double hyphen). -/
def matchesProjectNamePattern (s : List Nat) : Bool :=
  (splitHyphen s).all (fun g => !g.isEmpty && g.all isLowerAlnumCode)

/-- Truthiness of Python `re.match(PROJECT_NAME_PATTERN, s)` (config.py line
1224). `re.match` anchors at the start, and outside MULTILINE mode `$` matches
at the end of the string or just before a single newline at the end, so the
call succeeds on the pattern language itself and on a member of that language
followed by one final newline (code point 10). -/
def pyReMatchProjectName (s : List Nat) : Bool :=
  matchesProjectNamePattern s ||
    (match s.getLast? with
     | some 10 => matchesProjectNamePattern s.dropLast
     | _ => false)

/-- The prompt text in effect when `create_new_project` asks for a project name:
the initial `'Enter the project name'`, the inner invalid-name re-prompt, the
name-taken message built from a 409 response, or the server's 422 validation
message (`error['msg']`). -/
inductive PromptKind where
  | initial
  | invalidName
  | nameTaken
  | serverInvalid
deriving DecidableEq

/-- Trace events of a `create_new_project` run: each `Prompt.ask` call with the
prompt text in effect, and each name submitted by `POST /v1/projects/{org}`. -/
inductive CEvent where
  | prompted (k : PromptKind)
  | submitted (name : List Nat)
deriving DecidableEq

/-- Server responses to `POST /v1/projects/{org}` (config.py lines 1236-1258):
a 2xx response with a JSON body, a 409 conflict, a 422 whose first detail entry
has `loc == ['body', 'project_name']`, a 422 with any other `loc`, another
HTTP error status (for which `UnexpectedResponse.raise_for_status` raises),
or a `requests.RequestException` from the request itself. -/
inductive ServerResp where
  | created (body : Json)
  | conflict
  | unprocessablePn
  | unprocessableOther
  | httpError (code : Nat)
  | requestException

/-- Result of a `create_new_project` run: the returned response body, a raised
`LogfireConfigError`, or fuel exhaustion of the model; each carries the
event trace so far. -/
inductive CreateOutcome where
  | ok (body : Json) (trace : List CEvent)
  | configError (trace : List CEvent)
  | fuelOut (trace : List CEvent)

/-- Event trace of a `create_new_project` outcome. -/
def traceOf : CreateOutcome → List CEvent
  | .ok _ tr => tr
  | .configError tr => tr
  | .fuelOut tr => tr

/-- Python truthiness of a string: nonempty. -/
def pyTruthy (s : List Nat) : Bool :=
  !s.isEmpty

/-- Python truthiness of `Optional[str]`: `None` and the empty string are falsy. -/
def pyTruthyOpt : Option (List Nat) → Bool
  | none => false
  | some s => pyTruthy s

/-- The inner validation loop of `create_new_project` (config.py lines 1224-1232):
`while project_name and not re.match(PROJECT_NAME_PATTERN, project_name):`
re-prompt. Consumes user inputs from `prompts` starting at index `pi`; returns
`Sum.inr` with the accepted name, the next prompt index and the extended trace,
or `Sum.inl` with the trace when the fuel runs out. -/
def innerValidate (prompts : Nat → List Nat) :
    Nat → Nat → List Nat → List CEvent → List CEvent ⊕ List Nat × Nat × List CEvent
  | 0, pi, name, tr =>
    if pyTruthy name && !pyReMatchProjectName name then .inl tr
    else .inr (name, pi, tr)
  | fuel + 1, pi, name, tr =>
    if pyTruthy name && !pyReMatchProjectName name then
      innerValidate prompts fuel (pi + 1) (prompts pi) (tr ++ [.prompted .invalidName])
    else .inr (name, pi, tr)

/-- The head of each iteration of the retry loop (config.py lines 1222-1223):
`if force_project_name_prompt or not project_name: project_name = Prompt.ask(...)`.
Returns the candidate name, the next prompt index, and the trace so far. -/
def promptIfNeeded (prompts : Nat → List Nat) (pi : Nat) (pname : Option (List Nat))
    (force : Bool) (pk : PromptKind) (tr : List CEvent) : List Nat × Nat × List CEvent :=
  if force || !pyTruthyOpt pname then (prompts pi, pi + 1, tr ++ [CEvent.prompted pk])
  else (pname.getD [], pi, tr)

/-- The `while True` retry loop of `LogfireCredentials.create_new_project`
(config.py lines 1219-1260). `prompts` is the stream of values returned by
`Prompt.ask` (user interaction oracle), `resps` the stream of server responses
to the project-creation POSTs. `pname` and `force` model the `project_name` and
`force_project_name_prompt` variables, `pk` the `project_name_prompt` text in
effect. On a 409 and on a 422 with a `project_name` field error the name is
reset to `None` and the loop continues with the server-derived prompt text;
any other request failure is re-raised as `LogfireConfigError`. -/
def create_new_project (prompts : Nat → List Nat) (resps : Nat → ServerResp) :
    Nat → Nat → Nat → Option (List Nat) → Bool → PromptKind → List CEvent → CreateOutcome
  | 0, _, _, _, _, _, tr => .fuelOut tr
  | fuel + 1, pi, ri, pname, force, pk, tr =>
    match promptIfNeeded prompts pi pname force pk tr with
    | (name0, pi1, tr1) =>
      match innerValidate prompts fuel pi1 name0 tr1 with
      | .inl tr2 => .fuelOut tr2
      | .inr (name, pi2, tr2) =>
        let tr3 := tr2 ++ [CEvent.submitted name]
        match resps ri with
        | .created body => .ok body tr3
        | .conflict =>
          create_new_project prompts resps fuel pi2 (ri + 1) none force .nameTaken tr3
        | .unprocessablePn =>
          create_new_project prompts resps fuel pi2 (ri + 1) none force .serverInvalid tr3
        | .unprocessableOther => .configError tr3
        | .httpError _ => .configError tr3
        | .requestException => .configError tr3

/-- A submission event is valid when the submitted name is empty or passes
Python's `re.match` against `PROJECT_NAME_PATTERN` (pattern language plus an
optional single trailing newline); prompt events are always valid. -/
def submissionValid : CEvent → Bool
  | .submitted n => n.isEmpty || pyReMatchProjectName n
  | .prompted _ => true

/-- Responses that the retry loop absorbs without raising. -/
def softResp : ServerResp → Bool
  | .created _ => true
  | .conflict => true
  | .unprocessablePn => true
  | _ => false

/-- Responses on which `create_new_project` raises `LogfireConfigError`. -/
def hardResp : ServerResp → Bool
  | .unprocessableOther => true
  | .httpError _ => true
  | .requestException => true
  | _ => false

/-- Prompt stream in which the user answers every prompt by pressing Enter:
after a 409 the prompt default is the required-value sentinel `...`, for which
rich's `Prompt.ask` returns the empty string. -/
def cePrompts : Nat → List Nat := fun _ => []

/-- Response stream whose first POST answer is a 409 conflict and whose later
answers succeed. -/
def ceResps : Nat → ServerResp := fun n =>
  if n = 0 then .conflict else .created .null

/-- Response stream that always fails with a request exception. -/
def ceHardResps : Nat → ServerResp := fun _ => .requestException

/-- Response stream that always succeeds. -/
def ceSoftResps : Nat → ServerResp := fun _ => .created .null

/-- Spans are abstract for the purposes of the processor-chain model. -/
abbrev Span := Nat

/-- Modelled from the spec: `TailSamplingOptions` lives in
`exporters/tail_sampling.py`, which is not under src/; per spec §4.3 the
tail-sampling decision combines an optional user-supplied predicate over the
finished root span with a fallback random sample rate. -/
structure TailSamplingOptions where
  predicate : Option (Span → Bool)

/-- Modelled from the spec: the keep/drop decision of `TailSamplingProcessor`
(`exporters/tail_sampling.py`, not under src/). Per spec §9, "source applies
the predicate first and falls back to ratio-based inclusion only when the
predicate is absent"; the random draw and the rate are an independent
mechanism, not merged with the predicate into a single probability. -/
def tailSamplingDecision (opts : TailSamplingOptions) (randomRate : ℚ)
    (randomDraw : ℚ) (root : Span) : Bool :=
  match opts.predicate with
  | some p => p root
  | none => randomDraw < randomRate

/-- Span processors as composed by `LogfireConfig._initialize`: the base
processors handed to the local `add_span_processor` helper (user-supplied
`additional_span_processors`, the console `SimpleSpanProcessor`, the
OTLP `BatchSpanProcessor`, and the env-var-configured OTLP processor), the
`PendingSpanProcessor` registered directly, and the two wrappers
`TailSamplingProcessor` and `MainSpanProcessorWrapper`. -/
inductive Proc where
  | user (id : Nat)
  | consoleProc
  | batchExportProc
  | otlpEnvProc
  | pendingProc
  | tailSampling (inner : Proc) (opts : TailSamplingOptions) (randomRate : ℚ)
  | mainWrapper (inner : Proc)

/-- The slice of the resolved configuration that drives sampler and processor
construction in `_initialize`. `trace_sample_rate` (a Python float) is modelled
as a rational. -/
structure InitConfig where
  trace_sample_rate : ℚ
  tail_sampling : Option TailSamplingOptions
  additional_span_processors : List Nat
  consoleEnabled : Bool
  sendEnabled : Bool
  otlpEnvEnabled : Bool

/-- The random-inclusion ratio passed to `TailSamplingProcessor`
(config.py line 643): `self.trace_sample_rate if self.trace_sample_rate < 1 else 0`. -/
def tailRandomRate (rate : ℚ) : ℚ :=
  if rate < 1 then rate else 0

/-- The local helper `add_span_processor` of `_initialize`
(config.py lines 627-648): when tail sampling is configured the processor is
first wrapped in a `TailSamplingProcessor`, and the result is always wrapped
in a `MainSpanProcessorWrapper` before being registered with the tracer
provider. -/
def add_span_processor (cfg : InitConfig) (p : Proc) : Proc :=
  let p1 :=
    match cfg.tail_sampling with
    | some opts => Proc.tailSampling p opts (tailRandomRate cfg.trace_sample_rate)
    | none => p
  Proc.mainWrapper p1

/-- The sampler given to `SDKTracerProvider` (config.py lines 609-620):
`some r` stands for `ParentBasedTraceIdRatio(r)`, `none` for the default
(no random head sampling). -/
def samplerOf (cfg : InitConfig) : Option ℚ :=
  if cfg.trace_sample_rate < 1 && cfg.tail_sampling.isNone then
    some cfg.trace_sample_rate
  else none

/-- The processors handed to the local `add_span_processor` helper during
`_initialize`, in program order (config.py lines 650-652, 662-671, 709, 739-740). -/
def helperInputs (cfg : InitConfig) : List Proc :=
  cfg.additional_span_processors.map Proc.user
    ++ (if cfg.consoleEnabled then [Proc.consoleProc] else [])
    ++ (if cfg.sendEnabled then [Proc.batchExportProc] else [])
    ++ (if cfg.otlpEnvEnabled then [Proc.otlpEnvProc] else [])

/-- The processors registered with the tracer provider through the helper. -/
def registeredViaHelper (cfg : InitConfig) : List Proc :=
  (helperInputs cfg).map (add_span_processor cfg)

/-- Modelled from the spec: delivery semantics of the wrappers, with
`MainSpanProcessorWrapper` (`exporters/processor_wrapper.py`, not under src/)
applying the scrubber to the span before forwarding it (spec §4.2), and
`TailSamplingProcessor` inspecting the span it receives for its sampling
decision before forwarding it unchanged. `tailInspectedSpans scrub q s` lists
every span value that a tail-sampling processor inside `q` inspects when the
span `s` is delivered to `q`. -/
def tailInspectedSpans (scrub : Span → Span) : Proc → Span → List Span
  | .mainWrapper inner, s => tailInspectedSpans scrub inner (scrub s)
  | .tailSampling inner _ _, s => s :: tailInspectedSpans scrub inner s
  | _, _ => []

/-- The provider-registration state of a `LogfireConfig`
(config.py lines 518-520): `_has_set_providers` and `_initialized`. -/
structure ProviderState where
  has_set_providers : Bool
  initialized : Bool

/-- The state set up by `LogfireConfig.__init__` (config.py lines 519-520). -/
def initialProviderState : ProviderState :=
  { has_set_providers := false, initialized := false }

/-- One `configure()` call on the global config (config.py lines 546-570 and
763-777): `_initialized` is reset to `False`, so `_initialize` runs in full;
it calls `trace.set_tracer_provider` / `metrics.set_meter_provider` (counted
together as one registration) only when `_has_set_providers` is still `False`,
then sets both flags. Returns the new state and the number of global
registrations performed by this call. -/
def configureStep (st : ProviderState) : ProviderState × Nat :=
  let registrations := if st.has_set_providers then 0 else 1
  ({ has_set_providers := true, initialized := true }, registrations)

/-- Run `n` successive `configure()` calls starting from a freshly constructed
global config, returning the final state and the total number of global
provider registrations. -/
def runConfigures : Nat → ProviderState × Nat
  | 0 => (initialProviderState, 0)
  | n + 1 =>
    let r := runConfigures n
    let s := configureStep r.1
    (s.1, r.2 + s.2)

/-- Concrete tail-sampling options used by witnesses. -/
def tailOptsW : TailSamplingOptions :=
  { predicate := some (fun s => decide (s % 2 = 0)) }

/-- Concrete configuration used by witnesses: tail sampling on, one
user-supplied processor, rate 1/2. -/
def cfgW : InitConfig :=
  { trace_sample_rate := 1 / 2
  , tail_sampling := some tailOptsW
  , additional_span_processors := [0]
  , consoleEnabled := false
  , sendEnabled := true
  , otlpEnvEnabled := false }

/-- Concrete tail-sampling options with no user predicate, used by witnesses. -/
def tailOptsNoneW : TailSamplingOptions :=
  { predicate := none }

/-- Concrete configuration used by witnesses: no tail sampling, rate 1/2,
so head sampling is active. -/
def cfgHeadW : InitConfig :=
  { trace_sample_rate := 0
  , tail_sampling := none
  , additional_span_processors := []
  , consoleEnabled := true
  , sendEnabled := true
  , otlpEnvEnabled := false }

theorem popKey_perm (k : String) (v : Json) :
    ∀ kvs rest, popKey k kvs = (some v, rest) →
      (kvs.map Prod.fst).Perm (k :: rest.map Prod.fst) := by
  intro kvs
  induction kvs with
  | nil => intro rest h; simp [popKey] at h
  | cons hd t ih =>
    intro rest h
    obtain ⟨k2, w⟩ := hd
    simp only [popKey] at h
    by_cases hk : k2 = k
    · rw [if_pos hk] at h
      simp only [Prod.mk.injEq, Option.some.injEq] at h
      obtain ⟨rfl, rfl⟩ := h
      subst hk
      simp
    · rw [if_neg hk] at h
      rcases hpop : popKey k t with ⟨r1, r2⟩
      rw [hpop] at h
      simp only [Prod.mk.injEq] at h
      obtain ⟨rfl, rfl⟩ := h
      have hperm := ih r2 hpop
      simp only [List.map_cons]
      exact (hperm.cons k2).trans (List.Perm.swap k k2 _)

theorem mkCreds_some_keys_perm (kvs : List (String × Json)) (c : LogfireCredentials)
    (h : mkCreds kvs = some c) : (kvs.map Prod.fst).Perm credsFieldNames := by
  unfold mkCreds at h
  rcases h1 : popKey "token" kvs with ⟨o1, r1⟩
  rw [h1] at h
  cases o1 with
  | none => exact absurd h (by simp)
  | some t =>
  dsimp only at h
  rcases h2 : popKey "project_name" r1 with ⟨o2, r2⟩
  rw [h2] at h
  cases o2 with
  | none => exact absurd h (by simp)
  | some n =>
  dsimp only at h
  rcases h3 : popKey "project_url" r2 with ⟨o3, r3⟩
  rw [h3] at h
  cases o3 with
  | none => exact absurd h (by simp)
  | some u =>
  dsimp only at h
  rcases h4 : popKey "logfire_api_url" r3 with ⟨o4, r4⟩
  rw [h4] at h
  cases o4 with
  | none => exact absurd h (by simp)
  | some a =>
  cases r4 with
  | cons hd tl => exact absurd h (by simp)
  | nil =>
  have p1 := popKey_perm "token" t kvs r1 h1
  have p2 := popKey_perm "project_name" n r1 r2 h2
  have p3 := popKey_perm "project_url" u r2 r3 h3
  have p4 := popKey_perm "logfire_api_url" a r3 [] h4
  simp only [List.map_nil] at p4
  refine p1.trans ((p2.cons _).trans ?_)
  refine ((p3.cons _).cons _).trans ?_
  exact ((p4.cons _).cons _).cons _

/-- Claim C3: a credentials file that exists but is unreadable, is invalid JSON,
or is a JSON object whose keys (after legacy-key aliasing) do not match the
`LogfireCredentials` fields makes `load_creds_file` raise `LogfireConfigError`,
and `load_creds_file` returns `None` exactly when the file does not exist. -/
theorem load_creds_file_error_contract (f : CredsFile) :
    (load_creds_file f = .ok none ↔ f = .absent) ∧
    (f = .unreadable ∨ f = .invalidJson → load_creds_file f = .error .configError) ∧
    (∀ kvs, f = .content (.obj kvs) →
      ¬ ((legacyAdjust kvs).map Prod.fst).Perm credsFieldNames →
      load_creds_file f = .error .configError) := by
  refine ⟨?_, ?_, ?_⟩
  · cases f with
    | absent => simp [load_creds_file]
    | unreadable => simp [load_creds_file]
    | invalidJson => simp [load_creds_file]
    | content j =>
      cases j with
      | obj kvs =>
        simp only [load_creds_file]
        constructor
        · intro h
          rcases hm : mkCreds (legacyAdjust kvs) with _ | c <;> rw [hm] at h <;> simp at h
        · intro h; cases h
      | arr es => simp [load_creds_file]
      | null => simp [load_creds_file]
      | bool b => simp [load_creds_file]
      | num n => simp [load_creds_file]
      | str s => simp [load_creds_file]
  · rintro (rfl | rfl) <;> rfl
  · rintro kvs rfl hperm
    simp only [load_creds_file]
    rcases hm : mkCreds (legacyAdjust kvs) with _ | c
    · rfl
    · exact absurd (mkCreds_some_keys_perm _ _ hm) hperm

/-- Witness for C3: concrete instances of each hypothesis of the contract —
an invalid-JSON file raises, and an existing object file with a single
unrelated key raises, while its `.ok none` case coincides with absence. -/
theorem load_creds_file_error_contract_witness :
    load_creds_file .invalidJson = .error .configError ∧
    load_creds_file (.content (.obj [("foo", .str "bar")])) = .error .configError ∧
    (load_creds_file .absent = .ok none ↔ (CredsFile.absent = CredsFile.absent)) := by
  refine ⟨?_, ?_, ?_⟩
  · exact (load_creds_file_error_contract .invalidJson).2.1 (Or.inr rfl)
  · exact (load_creds_file_error_contract _).2.2 [("foo", .str "bar")] rfl (by decide)
  · exact (load_creds_file_error_contract .absent).1

/-- Claim C4: on read, the legacy `dashboard_url` key is accepted as an alias
for `project_url` — a file carrying only the legacy key (with a non-null value,
since a JSON null reads back as Python `None` and is dropped) loads with
`project_url` taken from `dashboard_url`, and when both keys are present the
value of the new `project_url` key is the one kept. -/
theorem load_creds_file_dashboard_url_alias (t n u a : Json) :
    (∀ d, d ≠ Json.null →
      load_creds_file (.content (.obj
        [ ("token", t), ("project_name", n), ("dashboard_url", d)
        , ("logfire_api_url", a) ])) = .ok (some ⟨t, n, d, a⟩)) ∧
    (∀ d, load_creds_file (.content (.obj
        [ ("token", t), ("project_name", n), ("project_url", u)
        , ("dashboard_url", d), ("logfire_api_url", a) ])) = .ok (some ⟨t, n, u, a⟩)) := by
  constructor
  · intro d hd
    cases d with
    | null => exact absurd rfl hd
    | bool b => rfl
    | num m => rfl
    | str s => rfl
    | arr es => rfl
    | obj kvs => rfl
  · intro d
    cases d with
    | null => rfl
    | bool b => rfl
    | num m => rfl
    | str s => rfl
    | arr es => rfl
    | obj kvs => rfl

/-- Witness for C4: the alias at a concrete legacy-only file and a concrete
both-keys file. -/
theorem load_creds_file_dashboard_url_alias_witness :
    load_creds_file (.content (.obj
      [ ("token", .str "tok"), ("project_name", .str "proj")
      , ("dashboard_url", .str "https://old"), ("logfire_api_url", .str "https://api") ])) =
      .ok (some ⟨.str "tok", .str "proj", .str "https://old", .str "https://api"⟩) ∧
    load_creds_file (.content (.obj
      [ ("token", .str "tok"), ("project_name", .str "proj")
      , ("project_url", .str "https://new"), ("dashboard_url", .str "https://old")
      , ("logfire_api_url", .str "https://api") ])) =
      .ok (some ⟨.str "tok", .str "proj", .str "https://new", .str "https://api"⟩) := by
  constructor
  · exact (load_creds_file_dashboard_url_alias (.str "tok") (.str "proj")
      (.str "unused") (.str "https://api")).1 (.str "https://old") (fun h => nomatch h)
  · exact (load_creds_file_dashboard_url_alias (.str "tok") (.str "proj")
      (.str "https://new") (.str "https://api")).2 (.str "https://old")

/-- Claim C1: with sending enabled and no token, an absent credentials file
makes `configure()` bootstrap a project and persist the credentials before
export is set up (the event order shows the write preceding `setupExport`),
and any later `configure()` on the same data directory — in particular on the
file just written — loads the stored token without prompting
(no `bootstrapPrompt`) and without validation (no `spawnTokenCheck`). -/
theorem configure_bootstraps_once_then_reuses (c c2 : LogfireCredentials) :
    credentials_flow .yes none .absent c =
      .ok { newFs := write_creds_file c
          , events := [.bootstrapPrompt, .writeCredsFileEv, .setupExport]
          , exportToken := some c.token } ∧
    credentials_flow .yes none (write_creds_file c) c2 =
      .ok { newFs := write_creds_file c
          , events := [.setupExport]
          , exportToken := some c.token } ∧
    (∀ fs c0, load_creds_file fs = .ok (some c0) →
      credentials_flow .yes none fs c2 =
        .ok { newFs := fs, events := [.setupExport], exportToken := some c0.token }) := by
  refine ⟨rfl, rfl, ?_⟩
  intro fs c0 h
  simp [credentials_flow, sendEnabled, h]

/-- Witness for C1: the reuse clause applied to the file written for concrete
bootstrap credentials. -/
theorem configure_bootstraps_once_then_reuses_witness :
    credentials_flow .yes none
        (write_creds_file ⟨.str "tok", .str "proj", .str "url", .str "api"⟩)
        ⟨.str "t2", .str "p2", .str "u2", .str "a2"⟩ =
      .ok { newFs := write_creds_file ⟨.str "tok", .str "proj", .str "url", .str "api"⟩
          , events := [.setupExport]
          , exportToken := some (.str "tok") } := by
  exact (configure_bootstraps_once_then_reuses
      ⟨.str "tok", .str "proj", .str "url", .str "api"⟩
      ⟨.str "t2", .str "p2", .str "u2", .str "a2"⟩).2.2
    (write_creds_file ⟨.str "tok", .str "proj", .str "url", .str "api"⟩)
    ⟨.str "tok", .str "proj", .str "url", .str "api"⟩ rfl

/-- Counterexample for C2: a 200 response whose JSON body is an empty object.
`response.json()` succeeds but `data['project_name']` raises `KeyError`, which
propagates to the caller of `from_token` — so `from_token` can raise, and a 200
response does not always yield credentials. -/
theorem from_token_raises_on_malformed_200 :
    from_token "tok" "https://api" (.response 200 (some (Json.obj []))) =
      .error .keyError := rfl

/-- Claim C2 (amended): for every outcome other than a 200 response — a request
exception, a 401, or any other status — `from_token` warns and returns `None`
without raising; on a 200 response whose JSON body carries `project_name` and
`project_url` it returns credentials built from those fields (but a 200
response with a malformed body raises, see the counterexample). -/
theorem from_token_degrades_without_raising (token base : String) (out : InfoOutcome) :
    (out = .requestException → from_token token base out = .ok (none, true)) ∧
    (∀ s b, out = .response s b → s ≠ 200 →
      from_token token base out = .ok (none, true)) ∧
    (∀ j pn pu, out = .response 200 (some j) →
      jsonSubscript j "project_name" = .ok pn →
      jsonSubscript j "project_url" = .ok pu →
      from_token token base out = .ok (some ⟨token, pn, pu, base⟩, false)) := by
  refine ⟨?_, ?_, ?_⟩
  · rintro rfl; rfl
  · rintro s b rfl hs
    by_cases h401 : s = 401
    · subst h401; rfl
    · simp [from_token, h401, hs]
  · rintro j pn pu rfl hpn hpu
    simp [from_token, hpn, hpu]

/-- Witness for C2: the degraded outcomes at a concrete 401, a concrete 500 and
a concrete request failure, and the success case at a concrete well-formed body. -/
theorem from_token_degrades_without_raising_witness :
    from_token "tok" "https://api" .requestException = .ok (none, true) ∧
    from_token "tok" "https://api" (.response 401 none) = .ok (none, true) ∧
    from_token "tok" "https://api" (.response 500 none) = .ok (none, true) ∧
    from_token "tok" "https://api"
        (.response 200 (some (Json.obj
          [("project_name", .str "proj"), ("project_url", .str "https://proj")]))) =
      .ok (some ⟨"tok", .str "proj", .str "https://proj", "https://api"⟩, false) := by
  refine ⟨?_, ?_, ?_, ?_⟩
  · exact (from_token_degrades_without_raising "tok" "https://api" .requestException).1 rfl
  · exact (from_token_degrades_without_raising "tok" "https://api"
      (.response 401 none)).2.1 401 none rfl (by decide)
  · exact (from_token_degrades_without_raising "tok" "https://api"
      (.response 500 none)).2.1 500 none rfl (by decide)
  · exact (from_token_degrades_without_raising "tok" "https://api"
      (.response 200 (some (Json.obj
        [("project_name", .str "proj"), ("project_url", .str "https://proj")])))).2.2
      _ (.str "proj") (.str "https://proj") rfl rfl rfl

/-- Claim C5: `sanitize_project_name` maps `"My Project!!"` to `"myproject"`;
in general it strips every character outside `[a-zA-Z0-9]`, lowercases the
survivors, truncates to 41 characters, and falls back to `"untitled"` exactly
when the stripped string is empty (so the output is never empty and never
longer than 41 characters). -/
theorem sanitize_project_name_spec :
    sanitize_project_name (strCodes "My Project!!") = strCodes "myproject" ∧
    (∀ name, (sanitize_project_name name).length ≤ 41) ∧
    (∀ name, sanitize_project_name name ≠ []) ∧
    (∀ name, name.filter isAsciiAlnumCode = [] →
      sanitize_project_name name = strCodes "untitled") ∧
    (∀ name, name.filter isAsciiAlnumCode ≠ [] →
      sanitize_project_name name =
        ((name.filter isAsciiAlnumCode).map pyLowerCode).take 41) := by
  refine ⟨by decide, ?_, ?_, ?_, ?_⟩
  · intro name
    simp only [sanitize_project_name]
    split
    · decide
    · rw [List.length_take]
      exact min_le_left _ _
  · intro name
    simp only [sanitize_project_name]
    split
    · decide
    · next h => simpa using h
  · intro name h
    simp [sanitize_project_name, h]
  · intro name h
    simp only [sanitize_project_name]
    rw [if_neg]
    simp only [List.isEmpty_eq_true, List.take_eq_nil_iff]
    push_neg
    constructor
    · decide
    · simpa using h

/-- Witness for C5: the empty-input fallback and the general shape at concrete
inputs with and without alphanumeric characters. -/
theorem sanitize_project_name_spec_witness :
    sanitize_project_name (strCodes "!!!") = strCodes "untitled" ∧
    sanitize_project_name (strCodes "Ab1") =
      (((strCodes "Ab1").filter isAsciiAlnumCode).map pyLowerCode).take 41 := by
  constructor
  · exact sanitize_project_name_spec.2.2.2.1 (strCodes "!!!") (by decide)
  · exact sanitize_project_name_spec.2.2.2.2 (strCodes "Ab1") (by decide)

theorem splitHyphen_no_hyphen : ∀ s : List Nat, 45 ∉ s → splitHyphen s = [s] := by
  intro s
  induction s with
  | nil => intro _; rfl
  | cons c t ih =>
    intro h
    have hc : ¬ c = 45 := fun e => h (e ▸ List.mem_cons_self c t)
    have ht : 45 ∉ t := fun m => h (List.mem_cons_of_mem c m)
    simp only [splitHyphen, ih ht, if_neg hc]

theorem matchesProjectNamePattern_of_lower (s : List Nat) (hne : s ≠ [])
    (hall : ∀ c ∈ s, isLowerAlnumCode c = true) :
    matchesProjectNamePattern s = true := by
  have h45 : 45 ∉ s := fun m => absurd (hall 45 m) (by decide)
  unfold matchesProjectNamePattern
  rw [splitHyphen_no_hyphen s h45]
  obtain ⟨a, t, rfl⟩ := List.exists_cons_of_ne_nil hne
  simp only [List.all_cons, List.all_nil, Bool.and_true, List.isEmpty_cons,
    Bool.not_false, Bool.true_and]
  rw [Bool.and_eq_true]
  refine ⟨hall a (List.mem_cons_self a t), ?_⟩
  rw [List.all_eq_true]
  exact fun c hc => hall c (List.mem_cons_of_mem a hc)

theorem sanitize_all_lower (name : List Nat) :
    ∀ c ∈ sanitize_project_name name, isLowerAlnumCode c = true := by
  intro c hc
  simp only [sanitize_project_name] at hc
  split at hc
  · exact (by decide : ∀ c ∈ strCodes "untitled", isLowerAlnumCode c = true) c hc
  · have hc2 := List.take_subset 41 _ hc
    obtain ⟨d, hd, rfl⟩ := List.mem_map.1 hc2
    have hd2 := (List.mem_filter.1 hd).2
    simp only [isAsciiAlnumCode, Bool.or_eq_true, Bool.and_eq_true,
      decide_eq_true_eq] at hd2
    simp only [isLowerAlnumCode, Bool.or_eq_true, Bool.and_eq_true, decide_eq_true_eq]
    by_cases hup : 65 ≤ d ∧ d ≤ 90
    · have hcond : (65 ≤ d && d ≤ 90) = true := by
        simp only [Bool.and_eq_true, decide_eq_true_eq]
        exact hup
      have hpl : pyLowerCode d = d + 32 := by
        unfold pyLowerCode
        rw [if_pos hcond]
      rw [hpl]
      omega
    · have hcond : ¬ (65 ≤ d && d ≤ 90) = true := by
        simp only [Bool.and_eq_true, decide_eq_true_eq]
        exact hup
      have hpl : pyLowerCode d = d := by
        unfold pyLowerCode
        rw [if_neg hcond]
      rw [hpl]
      omega

theorem sanitize_ne_nil (name : List Nat) : sanitize_project_name name ≠ [] := by
  simp only [sanitize_project_name]
  split
  · decide
  · next h => simpa using h

theorem innerValidate_pass (prompts : Nat → List Nat) (s : List Nat)
    (h : pyReMatchProjectName s = true) :
    ∀ fuel pi tr, innerValidate prompts fuel pi s tr = .inr (s, pi, tr) := by
  intro fuel
  cases fuel <;> intro pi tr <;> simp [innerValidate, h]

/-- Claim C10: every output of `sanitize_project_name` matches
`PROJECT_NAME_PATTERN` and is at most 41 characters long; consequently the
default project name derived from the current directory basename always passes
the client-side validation loop of `create_new_project` without any
invalid-name re-prompt. -/
theorem sanitize_output_passes_validation :
    (∀ name, matchesProjectNamePattern (sanitize_project_name name) = true) ∧
    (∀ name, (sanitize_project_name name).length ≤ 41) ∧
    (∀ cwd, matchesProjectNamePattern (default_project_name cwd) = true) ∧
    (∀ prompts fuel pi tr cwd,
      innerValidate prompts fuel pi (default_project_name cwd) tr =
        .inr (default_project_name cwd, pi, tr)) := by
  have hmatch : ∀ name, matchesProjectNamePattern (sanitize_project_name name) = true := by
    intro name
    refine matchesProjectNamePattern_of_lower _ ?_ (sanitize_all_lower name)
    exact sanitize_ne_nil name
  refine ⟨hmatch, ?_, fun cwd => hmatch cwd, ?_⟩
  · intro name
    simp only [sanitize_project_name]
    split
    · decide
    · rw [List.length_take]
      exact min_le_left _ _
  · intro prompts fuel pi tr cwd
    refine innerValidate_pass prompts _ ?_ fuel pi tr
    simp only [pyReMatchProjectName, Bool.or_eq_true]
    exact Or.inl (hmatch cwd)

theorem validAppend {xs ys : List CEvent}
    (hx : ∀ e ∈ xs, submissionValid e = true)
    (hy : ∀ e ∈ ys, submissionValid e = true) :
    ∀ e ∈ xs ++ ys, submissionValid e = true := by
  intro e he
  rcases List.mem_append.1 he with h | h
  · exact hx e h
  · exact hy e h

theorem emptyOrMatch_of_guard_false {name : List Nat}
    (h : ¬ (pyTruthy name && !pyReMatchProjectName name) = true) :
    (name.isEmpty || pyReMatchProjectName name) = true := by
  cases he : name.isEmpty <;> cases hm : pyReMatchProjectName name <;>
    simp_all [pyTruthy]

theorem innerValidate_cases (prompts : Nat → List Nat) :
    ∀ fuel pi name tr,
      ∃ rest, (∀ e ∈ rest, submissionValid e = true) ∧
        (innerValidate prompts fuel pi name tr = .inl (tr ++ rest) ∨
         ∃ name2 pi2,
           innerValidate prompts fuel pi name tr = .inr (name2, pi2, tr ++ rest) ∧
           (name2.isEmpty || pyReMatchProjectName name2) = true) := by
  intro fuel
  induction fuel with
  | zero =>
    intro pi name tr
    by_cases h : (pyTruthy name && !pyReMatchProjectName name) = true
    · refine ⟨[], by simp, Or.inl ?_⟩
      simp [innerValidate, h]
    · refine ⟨[], by simp, Or.inr ⟨name, pi, ?_, emptyOrMatch_of_guard_false h⟩⟩
      simp [innerValidate, h]
  | succ n ih =>
    intro pi name tr
    by_cases h : (pyTruthy name && !pyReMatchProjectName name) = true
    · obtain ⟨rest, hvalid, hform⟩ :=
        ih (pi + 1) (prompts pi) (tr ++ [CEvent.prompted .invalidName])
      have hstep : innerValidate prompts (n + 1) pi name tr =
          innerValidate prompts n (pi + 1) (prompts pi)
            (tr ++ [CEvent.prompted .invalidName]) := by
        simp [innerValidate, h]
      refine ⟨CEvent.prompted .invalidName :: rest, ?_, ?_⟩
      · intro e he
        rcases List.mem_cons.1 he with rfl | he2
        · rfl
        · exact hvalid e he2
      · rcases hform with hf | ⟨name2, pi2, hf, hn2⟩
        · left
          rw [hstep, hf]
          simp
        · right
          refine ⟨name2, pi2, ?_, hn2⟩
          rw [hstep, hf]
          simp
    · refine ⟨[], by simp, Or.inr ⟨name, pi, ?_, emptyOrMatch_of_guard_false h⟩⟩
      simp [innerValidate, h]

theorem create_trace_spec (prompts : Nat → List Nat) (resps : Nat → ServerResp) :
    ∀ fuel pi ri pname force pk tr,
      ∃ rest, (∀ e ∈ rest, submissionValid e = true) ∧
        traceOf (create_new_project prompts resps fuel pi ri pname force pk tr) =
          tr ++ rest ∧
        (fuel ≠ 0 → (force || !pyTruthyOpt pname) = true →
          ∃ rest2, rest = CEvent.prompted pk :: rest2) := by
  intro fuel
  induction fuel with
  | zero =>
    intro pi ri pname force pk tr
    exact ⟨[], by simp, by simp [create_new_project, traceOf], fun h => absurd rfl h⟩
  | succ n ih =>
    intro pi ri pname force pk tr
    have key : ∀ name0 pi1 tr1,
        promptIfNeeded prompts pi pname force pk tr = (name0, pi1, tr1) →
        ∃ rest, (∀ e ∈ rest, submissionValid e = true) ∧
          traceOf (create_new_project prompts resps (n + 1) pi ri pname force pk tr) =
            tr1 ++ rest := by
      intro name0 pi1 tr1 hpin
      obtain ⟨restIV, hIVvalid, hIVform⟩ := innerValidate_cases prompts n pi1 name0 tr1
      rcases hIVform with hf | ⟨name2, pi2, hf, hn2⟩
      · refine ⟨restIV, hIVvalid, ?_⟩
        simp only [create_new_project, hpin, hf]
        simp [traceOf]
      · have hsubList : ∀ e ∈ [CEvent.submitted name2], submissionValid e = true := by
          intro e he
          rw [List.mem_singleton] at he
          subst he
          simpa [submissionValid] using hn2
        cases hR : resps ri with
        | created body =>
          refine ⟨restIV ++ [CEvent.submitted name2], validAppend hIVvalid hsubList, ?_⟩
          simp only [create_new_project, hpin, hf, hR]
          simp [traceOf, List.append_assoc]
        | conflict =>
          obtain ⟨rest2, hv2, htr2, _⟩ :=
            ih pi2 (ri + 1) none force .nameTaken ((tr1 ++ restIV) ++ [CEvent.submitted name2])
          refine ⟨restIV ++ [CEvent.submitted name2] ++ rest2,
            validAppend (validAppend hIVvalid hsubList) hv2, ?_⟩
          simp only [create_new_project, hpin, hf, hR]
          rw [htr2]
          simp [List.append_assoc]
        | unprocessablePn =>
          obtain ⟨rest2, hv2, htr2, _⟩ :=
            ih pi2 (ri + 1) none force .serverInvalid ((tr1 ++ restIV) ++ [CEvent.submitted name2])
          refine ⟨restIV ++ [CEvent.submitted name2] ++ rest2,
            validAppend (validAppend hIVvalid hsubList) hv2, ?_⟩
          simp only [create_new_project, hpin, hf, hR]
          rw [htr2]
          simp [List.append_assoc]
        | unprocessableOther =>
          refine ⟨restIV ++ [CEvent.submitted name2], validAppend hIVvalid hsubList, ?_⟩
          simp only [create_new_project, hpin, hf, hR]
          simp [traceOf, List.append_assoc]
        | httpError code =>
          refine ⟨restIV ++ [CEvent.submitted name2], validAppend hIVvalid hsubList, ?_⟩
          simp only [create_new_project, hpin, hf, hR]
          simp [traceOf, List.append_assoc]
        | requestException =>
          refine ⟨restIV ++ [CEvent.submitted name2], validAppend hIVvalid hsubList, ?_⟩
          simp only [create_new_project, hpin, hf, hR]
          simp [traceOf, List.append_assoc]
    by_cases hcond : (force || !pyTruthyOpt pname) = true
    · obtain ⟨rest, hv, htr⟩ :=
        key (prompts pi) (pi + 1) (tr ++ [CEvent.prompted pk])
          (by simp [promptIfNeeded, hcond])
      refine ⟨CEvent.prompted pk :: rest, ?_, ?_, fun _ _ => ⟨rest, rfl⟩⟩
      · intro e he
        rcases List.mem_cons.1 he with rfl | he2
        · rfl
        · exact hv e he2
      · rw [htr]
        simp
    · obtain ⟨rest, hv, htr⟩ :=
        key (pname.getD []) pi tr (by simp [promptIfNeeded, hcond])
      exact ⟨rest, hv, htr, fun _ hc => absurd hc hcond⟩

theorem create_soft_never_configError (prompts : Nat → List Nat)
    (resps : Nat → ServerResp) (hsoft : ∀ n, softResp (resps n) = true) :
    ∀ fuel pi ri pname force pk tr tr2,
      create_new_project prompts resps fuel pi ri pname force pk tr ≠ .configError tr2 := by
  intro fuel
  induction fuel with
  | zero =>
    intro pi ri pname force pk tr tr2 h
    simp [create_new_project] at h
  | succ n ih =>
    intro pi ri pname force pk tr tr2 h
    rcases hpin : promptIfNeeded prompts pi pname force pk tr with ⟨name0, pi1, tr1⟩
    simp only [create_new_project, hpin] at h
    rcases hIV : innerValidate prompts n pi1 name0 tr1 with tr3 | ⟨name2, pi2, tr3⟩ <;>
      rw [hIV] at h
    · exact CreateOutcome.noConfusion h
    · cases hR : resps ri with
      | created body =>
        rw [hR] at h
        exact CreateOutcome.noConfusion h
      | conflict =>
        rw [hR] at h
        exact ih _ _ _ _ _ _ _ h
      | unprocessablePn =>
        rw [hR] at h
        exact ih _ _ _ _ _ _ _ h
      | unprocessableOther =>
        have hs := hsoft ri
        rw [hR] at hs
        exact Bool.noConfusion hs
      | httpError code =>
        have hs := hsoft ri
        rw [hR] at hs
        exact Bool.noConfusion hs
      | requestException =>
        have hs := hsoft ri
        rw [hR] at hs
        exact Bool.noConfusion hs

theorem create_hard_raises (prompts : Nat → List Nat) (resps : Nat → ServerResp)
    (fuel pi ri : Nat) (name : List Nat) (pk : PromptKind) (tr : List CEvent)
    (htruthy : pyTruthy name = true) (hmatch : pyReMatchProjectName name = true)
    (hhard : hardResp (resps ri) = true) :
    create_new_project prompts resps (fuel + 1) pi ri (some name) false pk tr =
      .configError (tr ++ [CEvent.submitted name]) := by
  have hpin : promptIfNeeded prompts pi (some name) false pk tr = (name, pi, tr) := by
    simp [promptIfNeeded, pyTruthyOpt, htruthy]
  have hIV := innerValidate_pass prompts name hmatch fuel pi tr
  simp only [create_new_project, hpin, hIV]
  cases hR : resps ri with
  | created body => rw [hR] at hhard; exact Bool.noConfusion hhard
  | conflict => rw [hR] at hhard; exact Bool.noConfusion hhard
  | unprocessablePn => rw [hR] at hhard; exact Bool.noConfusion hhard
  | unprocessableOther => rfl
  | httpError code => rfl
  | requestException => rfl

theorem create_conflict_reprompts (prompts : Nat → List Nat) (resps : Nat → ServerResp)
    (fuel pi ri : Nat) (name : List Nat) (pk pk2 : PromptKind) (tr : List CEvent)
    (hstep : create_new_project prompts resps (fuel + 2) pi ri (some name) false pk tr =
      create_new_project prompts resps (fuel + 1) pi (ri + 1) none false pk2
        (tr ++ [CEvent.submitted name])) :
    ∃ rest,
      traceOf (create_new_project prompts resps (fuel + 2) pi ri (some name) false pk tr) =
        tr ++ [CEvent.submitted name, CEvent.prompted pk2] ++ rest := by
  obtain ⟨rest, _, htr, hhead⟩ :=
    create_trace_spec prompts resps (fuel + 1) pi (ri + 1) none false pk2
      (tr ++ [CEvent.submitted name])
  obtain ⟨rest2, hrest⟩ := hhead (Nat.succ_ne_zero fuel) (by simp [pyTruthyOpt])
  refine ⟨rest2, ?_⟩
  rw [hstep, htr, hrest]
  simp

/-- Counterexample for C6: the claim says a candidate name is submitted only if
it matches `PROJECT_NAME_PATTERN`, with non-matching names re-prompted. But the
client-side guard is `while project_name and not re.match(...)`, so the empty
string — which rich's `Prompt.ask` returns on blank input once the 409 handler
has made the default the required-value sentinel `...` — skips validation and
is POSTed to the server: in this run the trace contains a submission of the
empty name, which does not match the pattern. -/
theorem create_new_project_submits_nonmatching_name :
    CEvent.submitted [] ∈
      traceOf (create_new_project cePrompts ceResps 5 0 0
        (some (strCodes "valid-name")) false .initial []) ∧
    matchesProjectNamePattern [] = false ∧
    pyReMatchProjectName [] = false := by decide

/-- Claim C6 (amended): every candidate name submitted by `create_new_project`
either passes Python's `re.match` against `PROJECT_NAME_PATTERN` — the pattern
language itself, or a member of it followed by a single trailing newline,
which `$` also accepts — or is the empty string, which the guard
`while project_name and ...` lets through to be rejected server-side;
candidates the `re.match` call rejects, other than the empty string, are
re-prompted and never submitted. A 409 or a 422 with a `project_name` field
error never raises: the loop continues and the next event is a re-prompt
carrying the server-derived message (`nameTaken` / `serverInvalid`); any other
failed response raises `LogfireConfigError` at the offending submission. -/
theorem create_new_project_error_contract :
    (∀ prompts resps fuel pi ri pname force pk tr,
      (∀ e ∈ tr, submissionValid e = true) →
      ∀ e ∈ traceOf (create_new_project prompts resps fuel pi ri pname force pk tr),
        submissionValid e = true) ∧
    (∀ prompts resps, (∀ n, softResp (resps n) = true) →
      ∀ fuel pi ri pname force pk tr tr2,
        create_new_project prompts resps fuel pi ri pname force pk tr ≠
          .configError tr2) ∧
    (∀ prompts resps fuel pi ri name pk tr,
      pyTruthy name = true → pyReMatchProjectName name = true →
      hardResp (resps ri) = true →
      create_new_project prompts resps (fuel + 1) pi ri (some name) false pk tr =
        .configError (tr ++ [CEvent.submitted name])) ∧
    (∀ prompts resps fuel pi ri name pk tr,
      pyTruthy name = true → pyReMatchProjectName name = true →
      resps ri = .conflict →
      ∃ rest,
        traceOf (create_new_project prompts resps (fuel + 2) pi ri
          (some name) false pk tr) =
          tr ++ [CEvent.submitted name, CEvent.prompted .nameTaken] ++ rest) ∧
    (∀ prompts resps fuel pi ri name pk tr,
      pyTruthy name = true → pyReMatchProjectName name = true →
      resps ri = .unprocessablePn →
      ∃ rest,
        traceOf (create_new_project prompts resps (fuel + 2) pi ri
          (some name) false pk tr) =
          tr ++ [CEvent.submitted name, CEvent.prompted .serverInvalid] ++ rest) := by
  refine ⟨?_, ?_, ?_, ?_, ?_⟩
  · intro prompts resps fuel pi ri pname force pk tr htr e he
    obtain ⟨rest, hv, htrace, _⟩ :=
      create_trace_spec prompts resps fuel pi ri pname force pk tr
    rw [htrace] at he
    exact validAppend htr hv e he
  · intro prompts resps hsoft
    exact create_soft_never_configError prompts resps hsoft
  · intro prompts resps fuel pi ri name pk tr ht hm hh
    exact create_hard_raises prompts resps fuel pi ri name pk tr ht hm hh
  · intro prompts resps fuel pi ri name pk tr ht hm hR
    refine create_conflict_reprompts prompts resps fuel pi ri name pk .nameTaken tr ?_
    have hpin : promptIfNeeded prompts pi (some name) false pk tr = (name, pi, tr) := by
      simp [promptIfNeeded, pyTruthyOpt, ht]
    have hIV := innerValidate_pass prompts name hm (fuel + 1) pi tr
    simp only [create_new_project, hpin, hIV, hR]
  · intro prompts resps fuel pi ri name pk tr ht hm hR
    refine create_conflict_reprompts prompts resps fuel pi ri name pk .serverInvalid tr ?_
    have hpin : promptIfNeeded prompts pi (some name) false pk tr = (name, pi, tr) := by
      simp [promptIfNeeded, pyTruthyOpt, ht]
    have hIV := innerValidate_pass prompts name hm (fuel + 1) pi tr
    simp only [create_new_project, hpin, hIV, hR]

/-- Witness for C6 (amended): the hard-error raise at a concrete request
failure (also at a name carrying a trailing newline, which `re.match` lets
through to submission), the no-raise guarantee under a concrete all-success
stream, the submission validity of a concrete run, and the concrete 409
re-prompt. -/
theorem create_new_project_error_contract_witness :
    create_new_project cePrompts ceHardResps 1 0 0 (some (strCodes "abc"))
        false .initial [] =
      .configError [CEvent.submitted (strCodes "abc")] ∧
    create_new_project cePrompts ceHardResps 1 0 0 (some (strCodes "abc" ++ [10]))
        false .initial [] =
      .configError [CEvent.submitted (strCodes "abc" ++ [10])] ∧
    (∀ tr2, create_new_project cePrompts ceSoftResps 3 0 0 (some (strCodes "abc"))
        false .initial [] ≠ .configError tr2) ∧
    (∀ e ∈ traceOf (create_new_project cePrompts ceResps 5 0 0
        (some (strCodes "valid-name")) false .initial []),
      submissionValid e = true) ∧
    (∃ rest,
      traceOf (create_new_project cePrompts ceResps (3 + 2) 0 0
        (some (strCodes "valid-name")) false .initial []) =
        [] ++ [CEvent.submitted (strCodes "valid-name"),
               CEvent.prompted .nameTaken] ++ rest) := by
  refine ⟨?_, ?_, ?_, ?_, ?_⟩
  · exact create_new_project_error_contract.2.2.1 cePrompts ceHardResps 0 0 0
      (strCodes "abc") .initial [] (by decide) (by decide) (by decide)
  · exact create_new_project_error_contract.2.2.1 cePrompts ceHardResps 0 0 0
      (strCodes "abc" ++ [10]) .initial [] (by decide) (by decide) (by decide)
  · exact create_new_project_error_contract.2.1 cePrompts ceSoftResps
      (fun _ => rfl) 3 0 0 (some (strCodes "abc")) false .initial []
  · exact create_new_project_error_contract.1 cePrompts ceResps 5 0 0
      (some (strCodes "valid-name")) false .initial []
      (fun e he => absurd he (List.not_mem_nil e))
  · exact create_new_project_error_contract.2.2.2.1 cePrompts ceResps 3 0 0
      (strCodes "valid-name") .initial [] (by decide) (by decide) rfl

theorem helperInputs_no_tail (cfg : InitConfig) (p : Proc) (hp : p ∈ helperInputs cfg)
    (scrub : Span → Span) (s : Span) : tailInspectedSpans scrub p s = [] := by
  simp only [helperInputs, List.mem_append] at hp
  rcases hp with ((hp | hp) | hp) | hp
  · obtain ⟨i, _, rfl⟩ := List.mem_map.1 hp
    rfl
  · by_cases hc : cfg.consoleEnabled
    · rw [if_pos hc, List.mem_singleton] at hp
      subst hp
      rfl
    · rw [if_neg hc] at hp
      exact absurd hp (List.not_mem_nil p)
  · by_cases hc : cfg.sendEnabled
    · rw [if_pos hc, List.mem_singleton] at hp
      subst hp
      rfl
    · rw [if_neg hc] at hp
      exact absurd hp (List.not_mem_nil p)
  · by_cases hc : cfg.otlpEnvEnabled
    · rw [if_pos hc, List.mem_singleton] at hp
      subst hp
      rfl
    · rw [if_neg hc] at hp
      exact absurd hp (List.not_mem_nil p)

/-- Claim C7: every processor registered with the tracer provider through the
local `add_span_processor` helper is wrapped with the scrubbing
`MainSpanProcessorWrapper` outermost and, when tail sampling is configured,
the `TailSamplingProcessor` nested inside it; consequently every span a
tail-sampling processor inside such a registered processor inspects is the
scrubbed version of the span that was delivered. -/
theorem scrubbing_wraps_tail_sampling (cfg : InitConfig) (q : Proc)
    (hq : q ∈ registeredViaHelper cfg) :
    (∃ p, p ∈ helperInputs cfg ∧
      (∀ opts, cfg.tail_sampling = some opts →
        q = .mainWrapper (.tailSampling p opts (tailRandomRate cfg.trace_sample_rate))) ∧
      (cfg.tail_sampling = none → q = .mainWrapper p)) ∧
    (∀ scrub s t, t ∈ tailInspectedSpans scrub q s → t = scrub s) := by
  obtain ⟨p, hp, rfl⟩ := List.mem_map.1 hq
  constructor
  · refine ⟨p, hp, ?_, ?_⟩
    · intro opts hopts
      simp [add_span_processor, hopts]
    · intro hnone
      simp [add_span_processor, hnone]
  · intro scrub s t ht
    rcases htail : cfg.tail_sampling with _ | opts
    · simp only [add_span_processor, htail, tailInspectedSpans] at ht
      rw [helperInputs_no_tail cfg p hp scrub (scrub s)] at ht
      exact absurd ht (List.not_mem_nil t)
    · simp only [add_span_processor, htail, tailInspectedSpans] at ht
      rw [helperInputs_no_tail cfg p hp scrub (scrub s)] at ht
      exact List.mem_singleton.1 ht

/-- Witness for C7: the wrapping shape and the scrubbed-inspection property at
the concrete configuration `cfgW` and its registered user processor. -/
theorem scrubbing_wraps_tail_sampling_witness :
    (∃ p, p ∈ helperInputs cfgW ∧
      (∀ opts, cfgW.tail_sampling = some opts →
        add_span_processor cfgW (Proc.user 0) =
          .mainWrapper (.tailSampling p opts (tailRandomRate cfgW.trace_sample_rate))) ∧
      (cfgW.tail_sampling = none →
        add_span_processor cfgW (Proc.user 0) = .mainWrapper p)) ∧
    (∀ scrub s t,
      t ∈ tailInspectedSpans scrub (add_span_processor cfgW (Proc.user 0)) s →
      t = scrub s) :=
  scrubbing_wraps_tail_sampling cfgW (add_span_processor cfgW (Proc.user 0))
    (List.mem_cons_self _ _)

/-- Claim C8: the tracer provider gets a `ParentBasedTraceIdRatio` sampler iff
`trace_sample_rate < 1` and no tail sampling is configured (so head and tail
sampling are never both active); with tail sampling configured, the random
ratio handed to the `TailSamplingProcessor` is `trace_sample_rate` when that is
below 1 and `0` otherwise; and the tail decision applies the user predicate
when present, falling back to the random draw against the ratio only when the
predicate is absent — two separate mechanisms, never a merged probability. -/
theorem head_tail_sampling_exclusive (cfg : InitConfig) :
    ((samplerOf cfg).isSome = true ↔
      (cfg.trace_sample_rate < 1 ∧ cfg.tail_sampling.isNone = true)) ∧
    (∀ r, samplerOf cfg = some r →
      r = cfg.trace_sample_rate ∧ cfg.tail_sampling.isNone = true) ∧
    (∀ opts p, cfg.tail_sampling = some opts →
      add_span_processor cfg p =
        .mainWrapper (.tailSampling p opts
          (if cfg.trace_sample_rate < 1 then cfg.trace_sample_rate else 0))) ∧
    (∀ opts pred rate draw root, opts.predicate = some pred →
      tailSamplingDecision opts rate draw root = pred root) ∧
    (∀ opts rate draw root, opts.predicate = none →
      tailSamplingDecision opts rate draw root = decide (draw < rate)) := by
  refine ⟨?_, ?_, ?_, ?_, ?_⟩
  · by_cases h : (cfg.trace_sample_rate < 1 && cfg.tail_sampling.isNone) = true
    · rw [samplerOf, if_pos h]
      simp only [Option.isSome_some, true_iff]
      simpa using h
    · rw [samplerOf, if_neg h]
      simp only [Option.isSome_none, Bool.false_eq_true, false_iff]
      intro hcon
      apply h
      simp [hcon.1, hcon.2]
  · intro r hr
    unfold samplerOf at hr
    split at hr
    · next h =>
      simp only [Option.some.injEq] at hr
      subst hr
      simp only [Bool.and_eq_true, decide_eq_true_eq] at h
      exact ⟨rfl, h.2⟩
    · exact Option.noConfusion hr
  · intro opts p h
    simp [add_span_processor, h, tailRandomRate]
  · intro opts pred rate draw root h
    simp [tailSamplingDecision, h]
  · intro opts rate draw root h
    simp [tailSamplingDecision, h]

/-- Witness for C8: the sampler contents at a concrete head-sampling
configuration, the processor shape at the concrete tail-sampling configuration,
and the two decision modes at concrete options, rates and draws. -/
theorem head_tail_sampling_exclusive_witness :
    ((0 : ℚ) = cfgHeadW.trace_sample_rate ∧ cfgHeadW.tail_sampling.isNone = true) ∧
    add_span_processor cfgW (Proc.user 3) =
      .mainWrapper (.tailSampling (Proc.user 3) tailOptsW
        (if cfgW.trace_sample_rate < 1 then cfgW.trace_sample_rate else 0)) ∧
    tailSamplingDecision tailOptsW (1 / 2) (1 / 4) 4 =
      (fun s => decide (s % 2 = 0)) 4 ∧
    tailSamplingDecision tailOptsNoneW (1 / 2) (1 / 4) 7 =
      decide ((1 / 4 : ℚ) < 1 / 2) := by
  refine ⟨?_, ?_, ?_, ?_⟩
  · exact (head_tail_sampling_exclusive cfgHeadW).2.1 0 (by decide)
  · exact (head_tail_sampling_exclusive cfgW).2.2.1 tailOptsW (Proc.user 3) rfl
  · exact (head_tail_sampling_exclusive cfgW).2.2.2.1 tailOptsW
      (fun s => decide (s % 2 = 0)) (1 / 2) (1 / 4) 4 rfl
  · exact (head_tail_sampling_exclusive cfgW).2.2.2.2 tailOptsNoneW
      (1 / 2) (1 / 4) 7 rfl

theorem runConfigures_state (k : Nat) :
    (runConfigures (k + 1)).1 = { has_set_providers := true, initialized := true } := by
  simp [runConfigures, configureStep]

/-- Claim C9: across any number `n` of `configure()` calls on the global config,
the OpenTelemetry global tracer and meter providers are registered exactly
`min n 1` times — once on the first initialization, never on later
reconfigurations, which only replace the internal provider state. -/
theorem global_providers_registered_once : ∀ n, (runConfigures n).2 = min n 1 := by
  intro n
  induction n with
  | zero => rfl
  | succ m ih =>
    cases m with
    | zero => rfl
    | succ k =>
      have hst := runConfigures_state k
      have hstep : (runConfigures (k + 2)).2 =
          (runConfigures (k + 1)).2 +
            (if (runConfigures (k + 1)).1.has_set_providers then 0 else 1) := rfl
      rw [hstep, hst, ih]
      simp

end Logfire
